import Mathlib

/-!
Verification development for the HotUpdate update-orchestration pipeline
(UE4 plugin: manifest resolution, chunked resumable downloads, pak
validation and mounting).  The C++ sources are shallowly embedded below:
pure decision logic becomes Lean functions, the callback-driven state
machines become explicit state-passing functions, engine primitives that
the repository only calls (HTTP transport, JSON root parsing, MD5, the
file system) appear as explicit parameters whose relevant contract is
stated where used.
-/

namespace HotUpdate

/-- Case-insensitive string equality; models `FString::operator==`, which
compares with `ESearchCase::IgnoreCase`. -/
def caselessEq (a b : String) : Bool :=
  a.toList.map Char.toLower == b.toList.map Char.toLower

/-- Models `FPaths::GetCleanFilename`: the portion of the path after the
last `/` or `\`. -/
def cleanFilename (path : String) : String :=
  path.toList.foldl (fun acc c => if c = '/' || c = '\\' then "" else acc.push c) ""

/-- Models `FPaths::GetExtension`: the text after the last `.` of the clean
file name, or the empty string when there is no dot. -/
def getExtension (path : String) : String :=
  ((cleanFilename path).toList.foldl
    (fun acc c =>
      match acc with
      | none => if c = '.' then some "" else none
      | some s => if c = '.' then some "" else some (s.push c))
    none).getD ""

/-- The task-level events of `EDownloadTaskEvent` (FileDownType.h). -/
inductive EDownloadTaskEvent : Type where
  | REQ_HEAD
  | RET_HEAD
  | BEGIN_DOWNLOAD
  | UPDATE_DOWNLOAD
  | END_DOWNLOAD
  | ERROR
deriving DecidableEq, Repr

/-- The manager-level events of `EDownloadState` (FileDownType.h). -/
inductive EDownloadState : Type where
  | BEGIN_DOWNLOAD
  | UPDATE_DOWNLOAD
  | BEGIN_FILE_DOWNLOAD
  | END_FILE_DOWNLOAD
  | END_DOWNLOAD
deriving DecidableEq, Repr

/-- The coordinator-level states of `EHotUpdateState` (FileDownType.h). -/
inductive EHotUpdateState : Type where
  | BEGIN_HOTUPDATE
  | BEGIN_GETVERSION
  | END_GETVERSION
  | BEGIN_DOWNLOAD
  | END_DOWNLOAD
  | BEGIN_MOUNT
  | END_MOUNT
  | END_HOTUPDATE
  | ERROR
deriving DecidableEq, Repr

/-- `FTaskInfo` (TaskInfo.h).  The default C++ constructor zero-fills the
sizes and draws `GUID` from `FGuid::NewGuid()`; GUIDs are modelled as
naturals supplied by a freshness source at each construction site. -/
structure FTaskInfo where
  FileName : String
  URL : String
  FileSize : Nat
  CurrentSize : Int
  DownloadSize : Int
  TotalSize : Int
  GUID : Nat
deriving DecidableEq, Repr

/-- The manager-visible part of `FDownloadTask`: its `TaskInfo` and the
`bIsDownLoading` flag. -/
structure DTask where
  info : FTaskInfo
  bIsDownLoading : Bool
deriving DecidableEq, Repr

namespace FFileDownloadManager

/-- The mutable state of `FFileDownloadManager` that the enqueue and
terminal-event paths touch: the GUID-keyed task map (as an insertion-ordered
association list), the failed list and the downloaded-bytes counter. -/
structure State where
  Tasks : List (Nat × DTask)
  FailedTasks : List DTask
  CurrentDownloadSize : Int
deriving DecidableEq, Repr

/-- The manager state before any `AddTask` call. -/
def emptyState : State :=
  { Tasks := [], FailedTasks := [], CurrentDownloadSize := 0 }

/-- `FFileDownloadManager::AddTask` (FileDownloadManager.cpp:133).  A new
`FDownloadTask` is constructed first — its `FTaskInfo` constructor draws a
fresh GUID (`freshGuid` here) — then the map is consulted with
`Tasks.Contains(Task->GetGuid())` and the task is inserted when that key is
absent. -/
def AddTask (st : State) (freshGuid : Nat) (URL Name : String) (Size : Nat) : State :=
  let task : DTask :=
    { info := { FileName := Name, URL := URL, FileSize := Size,
                CurrentSize := 0, DownloadSize := 0, TotalSize := 0, GUID := freshGuid },
      bIsDownLoading := false }
  if st.Tasks.any (fun kv => kv.1 == task.info.GUID) then st
  else { st with Tasks := st.Tasks ++ [(task.info.GUID, task)] }

/-- `TMap::RemoveAndCopyValue` on the GUID-keyed task map: removes the
first binding of the key and returns it alongside the remaining map. -/
def removeTask : List (Nat × DTask) → Nat → Option (DTask × List (Nat × DTask))
  | [], _ => none
  | (k, t) :: rest, g =>
    if k = g then some (t, rest)
    else
      match removeTask rest g with
      | none => none
      | some (t', rest') => some (t', (k, t) :: rest')

/-- The restart loop at the end of `OnTaskFinish`: every remaining task
that is not currently downloading is `Start()`ed.  For a well-formed task
this issues its HEAD request and sets `bIsDownLoading`; the HEAD request
itself produces no manager-level event (`REQ_HEAD` falls into the switch's
default case), so only the flag change is visible here. -/
def restartPending (kv : Nat × DTask) : Nat × DTask :=
  if kv.2.bIsDownLoading then kv else (kv.1, { kv.2 with bIsDownLoading := true })

/-- `FFileDownloadManager::OnTaskFinish` (FileDownloadManager.cpp:80):
accumulate the downloaded size, remove the task from the map (returning
unchanged if the GUID is absent), on failure append it to `FailedTasks`
(on success the staged file is moved, which has no manager-state effect),
then restart every still-pending task. -/
def OnTaskFinish (st : State) (Info : FTaskInfo) (bIsSuccess : Bool) : State :=
  let st1 : State := { st with CurrentDownloadSize := st.CurrentDownloadSize + Info.DownloadSize }
  match removeTask st1.Tasks Info.GUID with
  | none => st1
  | some (t, rest) =>
    let st2 : State :=
      if bIsSuccess then { st1 with Tasks := rest }
      else { st1 with Tasks := rest, FailedTasks := st1.FailedTasks ++ [t] }
    { st2 with Tasks := st2.Tasks.map restartPending }

/-- `FFileDownloadManager::IsSuccessful` (FileDownloadManager.cpp:75):
`Tasks.Num() <= 0 && FailedTasks.Num() <= 0`. -/
def IsSuccessful (st : State) : Bool :=
  st.Tasks.length ≤ 0 && st.FailedTasks.length ≤ 0

/-- The two terminal cases of `FFileDownloadManager::OnTaskEvent`
(FileDownloadManager.cpp:148), returning the new state and the
manager-level events executed.  `END_DOWNLOAD` from a task: emit
`END_FILE_DOWNLOAD`, run `OnTaskFinish(…, true)`, and emit the aggregate
`END_DOWNLOAD` only when `IsSuccessful()` now holds.  `ERROR` from a task:
run `OnTaskFinish(…, false)` and emit nothing. -/
def OnTaskTerminal (st : State) (InInfo : FTaskInfo) (success : Bool) :
    State × List EDownloadState :=
  if success then
    let st' := OnTaskFinish st InInfo true
    (st', EDownloadState.END_FILE_DOWNLOAD ::
      (if IsSuccessful st' then [EDownloadState.END_DOWNLOAD] else []))
  else
    (OnTaskFinish st InInfo false, [])

/-- Fold a sequence of terminal task events through the manager,
concatenating the emitted manager-level events. -/
def runTerminalEvents (st : State) : List (FTaskInfo × Bool) → State × List EDownloadState
  | [] => (st, [])
  | (i, ok) :: rest =>
    let r := OnTaskTerminal st i ok
    let r' := runTerminalEvents r.1 rest
    (r'.1, r.2 ++ r'.2)

end FFileDownloadManager

namespace FDownloadTask

/-- `const int32 ChunkSize = 4 * 1024 * 1024` (DownLoadTask.h). -/
def ChunkSize : Nat := 4 * 1024 * 1024

/-- `FString::Find("/", IgnoreCase, FromStart, 14)` used by
`FDownloadTask::GetEncodedURL`.  On a nonempty string the engine clamps
the start position to the valid range (`Start += Clamp(StartPosition, 0,
Len() - 1)`) and scans the remainder from there, so the result is the
index of the first `/` at or after `min(start, length - 1)`; on the empty
string the scan finds nothing and `Find` returns `INDEX_NONE`. -/
def findSlashFrom (s : String) (start : Nat) : Option Nat :=
  if s.length = 0 then none
  else
    match (s.toList.drop (min start (s.length - 1))).findIdx? (fun c => c == '/') with
    | none => none
    | some j => some (min start (s.length - 1) + j)

/-- `ParseIntoArray` on `/` as used by `GetEncodedURL`: split the string
at `/` characters, culling empty segments (the default `InCullEmpty`). -/
def parseSegments (s : String) : List String :=
  (fun r : List String × String => if r.2 = "" then r.1 else r.1 ++ [r.2])
    (s.toList.foldl
      (fun acc c =>
        if c = '/' then (if acc.2 = "" then acc.1 else acc.1 ++ [acc.2], "")
        else (acc.1, acc.2.push c))
      ([], ""))

/-- The rejoin loop of `GetEncodedURL`: concatenate the units with a `/`
between consecutive ones. -/
def joinSegments : List String → String
  | [] => ""
  | [s] => s
  | s :: rest => s ++ "/" ++ joinSegments rest

/-- The re-encoding of the path part in `FDownloadTask::GetEncodedURL`
(DownLoadTask.cpp:344): `ParseIntoArray` on `/` (which culls empty
segments), percent-encode each segment with the engine's
`FGenericPlatformHttp::UrlEncode` (passed in as `urlEncode`), and rejoin
with `/`. -/
def encodeSegments (urlEncode : String → String) (sub : String) : String :=
  joinSegments ((parseSegments sub).map urlEncode)

/-- `FDownloadTask::GetEncodedURL` (DownLoadTask.cpp:344).  `URLSplit` is
`Find(…) + 1`; when no `/` exists at index 14 or later, `Find` returns
`INDEX_NONE = -1`, `URLSplit = 0` fails the `> 0` test and the function
returns the empty string. -/
def GetEncodedURL (urlEncode : String → String) (URL : String) : String :=
  match findSlashFrom URL 14 with
  | none => ""
  | some i => (URL.take (i + 1)) ++ encodeSegments urlEncode (URL.drop (i + 1))

/-- What `FDownloadTask::Start` produces: the (possibly derived) file name,
the `bIsDownLoading` flag after the call, the task events executed
synchronously, and the HTTP requests issued (HEAD URLs). -/
structure StartOutcome where
  fileName : String
  bIsDownLoading : Bool
  taskEvents : List EDownloadTaskEvent
  httpRequests : List String
deriving DecidableEq, Repr

/-- `FDownloadTask::Start` (DownLoadTask.cpp:42) followed by its
synchronous `ReqGetHead` (DownLoadTask.cpp:92): derive the file name from
the URL when empty; fail with `ERROR` when URL or file name is empty;
return unchanged when already downloading; otherwise set `bIsDownLoading`
and issue the HEAD request — except that when `GetEncodedURL` yields the
empty string `ReqGetHead` merely logs and returns, issuing no request and
executing no event. -/
def Start (urlEncode : String → String) (URL FileName0 : String)
    (wasDownloading : Bool) : StartOutcome :=
  let FileName := if FileName0 = "" then cleanFilename URL else FileName0
  if URL = "" ∨ FileName = "" then
    { fileName := FileName, bIsDownLoading := wasDownloading,
      taskEvents := [EDownloadTaskEvent.ERROR], httpRequests := [] }
  else if wasDownloading then
    { fileName := FileName, bIsDownLoading := true, taskEvents := [], httpRequests := [] }
  else
    let encoded := GetEncodedURL urlEncode URL
    if encoded = "" then
      { fileName := FileName, bIsDownLoading := true, taskEvents := [], httpRequests := [] }
    else
      { fileName := FileName, bIsDownLoading := true,
        taskEvents := [EDownloadTaskEvent.REQ_HEAD], httpRequests := [encoded] }

/-- Whether the HEAD response lets the task proceed to the chunk phase. -/
inductive HeadOutcome : Type where
  | error
  | proceed
deriving DecidableEq, Repr

/-- Result of the HEAD-response handler: the decision plus the task events
executed along the way. -/
structure HeadResult where
  outcome : HeadOutcome
  taskEvents : List EDownloadTaskEvent
deriving DecidableEq, Repr

/-- `FDownloadTask::RetGetHead` (DownLoadTask.cpp:116): an invalid
response or transport failure executes `ERROR`; a response code `>= 400`
or `< 200` executes `ERROR`; otherwise `RET_HEAD` is executed, the temp
directory and temp file are created (their failures, abstracted as the
`createDirOk`/`openTempFileOk` flags, each execute `ERROR`), and on
success the task proceeds into `ReqGetChunk`. -/
def RetGetHead (responseValid bConnectedSuccessfully : Bool) (ResponseCode : Int)
    (createDirOk openTempFileOk : Bool) : HeadResult :=
  if ¬ responseValid ∨ ¬ bConnectedSuccessfully then
    { outcome := HeadOutcome.error, taskEvents := [EDownloadTaskEvent.ERROR] }
  else if ResponseCode ≥ 400 ∨ ResponseCode < 200 then
    { outcome := HeadOutcome.error, taskEvents := [EDownloadTaskEvent.ERROR] }
  else if ¬ createDirOk then
    { outcome := HeadOutcome.error,
      taskEvents := [EDownloadTaskEvent.RET_HEAD, EDownloadTaskEvent.ERROR] }
  else if ¬ openTempFileOk then
    { outcome := HeadOutcome.error,
      taskEvents := [EDownloadTaskEvent.RET_HEAD, EDownloadTaskEvent.ERROR] }
  else
    { outcome := HeadOutcome.proceed, taskEvents := [EDownloadTaskEvent.RET_HEAD] }

/-- The sequence of `Range` byte intervals (inclusive begin/end pairs)
issued by the `ReqGetChunk`/`OnWriteChunkEnd` loop (DownLoadTask.cpp:184
and 328) when every chunk response delivers exactly the requested bytes:
each request spans `[CurrentSize, min(CurrentSize + ChunkSize - 1,
TotalSize - 1)]`, `OnWriteChunkEnd` advances `CurrentSize` past the chunk,
and the loop continues while `CurrentSize < TotalSize`.  `C` generalises
`ChunkSize`, `total` is the `TotalSize` recorded from the HEAD response,
and `cur` the current `CurrentSize` (0 at the first request). -/
def chunkRequests (C total cur : Nat) : List (Nat × Nat) :=
  if h : 0 < C ∧ cur < total then
    (cur, min (cur + C - 1) (total - 1)) ::
      chunkRequests C total (min (cur + C - 1) (total - 1) + 1)
  else []
termination_by total - cur
decreasing_by omega

end FDownloadTask

namespace UHotUpdateSubsystem

/-- The pieces of `UHotUpdateSubsystem` state that the manifest
timeout/retry path touches: the retry counter, whether the sink `ERROR`
state has been reached (timer cleared), and the coordinator-state events
executed so far. -/
structure RetryState where
  CurrentTimeRetry : Nat
  bErrored : Bool
  stateEvents : List EHotUpdateState
deriving DecidableEq, Repr

/-- State after the initial `ReqGetVersion` (which executes
`BEGIN_GETVERSION` and arms the timeout timer); `CurrentTimeRetry`
initialises to 0. -/
def initialRetryState : RetryState :=
  { CurrentTimeRetry := 0, bErrored := false,
    stateEvents := [EHotUpdateState.BEGIN_GETVERSION] }

/-- `UHotUpdateSubsystem::OnReqGetVersionTimeOut` (HotUpdateSubsystem.cpp:249):
increment `CurrentTimeRetry`; while it is `<= MaxRetryTime` issue
`ReqGetVersion` again (executing `BEGIN_GETVERSION`), otherwise reset the
counter, clear the timer and execute `ERROR`.  Once errored the timer is
cleared, so no further timeout fires (modelled as a no-op). -/
def OnReqGetVersionTimeOut (MaxRetryTime : Nat) (s : RetryState) : RetryState :=
  if s.bErrored then s
  else
    let c := s.CurrentTimeRetry + 1
    if c ≤ MaxRetryTime then
      { CurrentTimeRetry := c, bErrored := false,
        stateEvents := s.stateEvents ++ [EHotUpdateState.BEGIN_GETVERSION] }
    else
      { CurrentTimeRetry := 0, bErrored := true,
        stateEvents := s.stateEvents ++ [EHotUpdateState.ERROR] }

/-- The coordinator state after `n` consecutive manifest-request timeouts
following the initial request. -/
def runTimeouts (MaxRetryTime : Nat) : Nat → RetryState
  | 0 => initialRetryState
  | n + 1 => OnReqGetVersionTimeOut MaxRetryTime (runTimeouts MaxRetryTime n)

/-- One manifest entry as read in `RetGetVersion`: the `File`, `HASH` and
`Size` fields of the JSON file object (also the payload of
`FPakFileProperty`). -/
structure FileEntry where
  File : String
  HASH : String
  Size : Int
deriving DecidableEq, Repr

/-- The parsed manifest: a mapping from version string to its file list,
in document order. -/
abbrev Manifest : Type := List (String × List FileEntry)

/-- The first non-whitespace character of the response body, as seen by
the engine JSON reader's first-token scan. -/
def firstNonWhitespace (s : String) : Option Char :=
  s.toList.find? (fun c => !(c == ' ' || c == '\t' || c == '\n' || c == '\r'))

/-- The opening-brace character (written by code point to keep it out of
string literals). -/
def openBraceChar : Char := Char.ofNat 123

/-- Models `FJsonSerializer::Deserialize` into a `TSharedPtr<FJsonObject>`
as called by `RetGetVersion`: the engine reader fails unless the first
token opens a JSON container, and the object overload additionally
requires the root to be an object, so nothing is produced unless the first
non-whitespace character is an opening brace; the rest of the parse is the
abstract `parseObj`. -/
def deserializeJsonObject (parseObj : String → Option Manifest) (s : String) :
    Option Manifest :=
  match firstNonWhitespace s with
  | some c => if c = openBraceChar then parseObj s else none
  | none => none

/-- The per-entry loop of `RetGetVersion` (HotUpdateSubsystem.cpp:314--342):
for every version's every file entry, `DownloadManager->AddTask` is called
exactly when `FFilePakManager::IsPakValid` (abstracted as `isPakValidFn`,
a function of the entry) fails, and `PakManager->AddPakFile` is called
unconditionally.  Returns (entries passed to AddTask, entries passed to
AddPakFile). -/
def processManifest (isPakValidFn : FileEntry → Bool) (m : Manifest) :
    List FileEntry × List FileEntry :=
  ((m.map (fun vf => vf.2.filter (fun e => ¬ isPakValidFn e))).flatten,
   (m.map (fun vf => vf.2)).flatten)

/-- What `RetGetVersion` does overall: the coordinator events executed and
the two registration lists. -/
structure VersionResult where
  stateEvents : List EHotUpdateState
  addedTasks : List FileEntry
  addedPakFiles : List FileEntry
deriving DecidableEq, Repr

/-- `UHotUpdateSubsystem::RetGetVersion` (HotUpdateSubsystem.cpp:276):
clear the timer; on transport failure or invalid response execute `ERROR`;
on a response code `>= 400` or `< 200` execute `ERROR`; otherwise
deserialize the body — on success run the per-entry loop and execute
`END_GETVERSION`, on failure execute `ERROR` (failed to deserialize). -/
def RetGetVersion (parseObj : String → Option Manifest)
    (isPakValidFn : FileEntry → Bool)
    (bConnectedSuccessfully responseValid : Bool) (ResponseCode : Int)
    (content : String) : VersionResult :=
  if ¬ bConnectedSuccessfully ∨ ¬ responseValid then
    { stateEvents := [EHotUpdateState.ERROR], addedTasks := [], addedPakFiles := [] }
  else if ResponseCode ≥ 400 ∨ ResponseCode < 200 then
    { stateEvents := [EHotUpdateState.ERROR], addedTasks := [], addedPakFiles := [] }
  else
    match deserializeJsonObject parseObj content with
    | some m =>
      { stateEvents := [EHotUpdateState.END_GETVERSION],
        addedTasks := (processManifest isPakValidFn m).1,
        addedPakFiles := (processManifest isPakValidFn m).2 }
    | none =>
      { stateEvents := [EHotUpdateState.ERROR], addedTasks := [], addedPakFiles := [] }

/-- The response body the repository's own server stub (WWW/index.php)
sends when the requested version file does not exist:
`exit(json_encode(""))`, i.e. the two-character body consisting of a pair
of double quotes. -/
def emptyJsonStringResponse : String := "\"\""

end UHotUpdateSubsystem

/-- `FPakFileProperty` (FileDownType.h): the manifest-declared name, size
and MD5 hex digest of one pak. -/
structure FPakFileProperty where
  PakName : String
  PakSize : Int
  MD5 : String
deriving DecidableEq, Repr

namespace FFilePakManager

/-- One hex digit as produced by the engine's `BytesToHex` (uppercase). -/
def toHexDigit (n : Nat) : Char :=
  if n < 10 then Char.ofNat (48 + n) else Char.ofNat (55 + n)

/-- `BytesToHex(Hash.GetBytes(), Hash.GetSize())`: the uppercase
hexadecimal rendering of a byte sequence, two digits per byte. -/
def bytesToHex (bs : List Nat) : String :=
  bs.foldl (fun acc b => (acc.push (toHexDigit ((b % 256) / 16))).push (toHexDigit (b % 16))) ""

/-- `FFilePakManager::IsPakValid` (FilePakManager.cpp:126).  The local file
at the pak save path is modelled as `none` (absent) or `some contents`
(its byte list); `md5File` models the engine digest `FMD5Hash::HashFile`,
whose result is valid exactly when the existing file could be read
(always, in this model).  The function returns false when the file does
not exist (`FileExists`), when its size differs from `PakSize`
(`FileSize`), and otherwise compares `BytesToHex` of the digest with the
manifest `MD5` using `FString::operator==`, which ignores case. -/
def IsPakValid (file : Option (List Nat)) (md5File : List Nat → List Nat)
    (PakInfo : FPakFileProperty) : Bool :=
  match file with
  | none => false
  | some contents =>
    if (contents.length : Int) ≠ PakInfo.PakSize then false
    else caselessEq (bytesToHex (md5File contents)) PakInfo.MD5

/-- What one run of `FFilePakManager::StartUp` leaves behind: the `PakFiles`
array after the loop's `RemoveAt` calls, `FailedPakList`, and the entries
on which `IsPakValid` and `Mount` were invoked (in call order). -/
structure StartUpResult where
  PakFiles : List FPakFileProperty
  FailedPakList : List FPakFileProperty
  validatedCalls : List FPakFileProperty
  mountCalls : List FPakFileProperty
deriving DecidableEq, Repr

/-- The per-entry loop of `FFilePakManager::StartUp` (FilePakManager.cpp:27).
Entries whose extension compares unequal to `pak` (case-insensitively, as
`FString` comparison is) are skipped with `continue`, staying in
`PakFiles` untouched.  Otherwise the entry is validated (`isValidFn`
abstracts `IsPakValid` against the disk): an invalid entry is appended to
`FailedPakList` and removed from `PakFiles` (`RemoveAt(i--)`); a valid one
is mounted (`mountFn` abstracts `PakPlatformFile->Mount`), a failed mount
appending to `FailedPakList`, and the entry remains in `PakFiles` either
way. -/
def StartUp (isValidFn mountFn : FPakFileProperty → Bool) :
    List FPakFileProperty → StartUpResult
  | [] => { PakFiles := [], FailedPakList := [], validatedCalls := [], mountCalls := [] }
  | p :: rest =>
    if caselessEq (getExtension p.PakName) "pak" then
      if isValidFn p then
        let r := StartUp isValidFn mountFn rest
        if mountFn p then
          { PakFiles := p :: r.PakFiles, FailedPakList := r.FailedPakList,
            validatedCalls := p :: r.validatedCalls, mountCalls := p :: r.mountCalls }
        else
          { PakFiles := p :: r.PakFiles, FailedPakList := p :: r.FailedPakList,
            validatedCalls := p :: r.validatedCalls, mountCalls := p :: r.mountCalls }
      else
        let r := StartUp isValidFn mountFn rest
        { PakFiles := r.PakFiles, FailedPakList := p :: r.FailedPakList,
          validatedCalls := p :: r.validatedCalls, mountCalls := r.mountCalls }
    else
      let r := StartUp isValidFn mountFn rest
      { PakFiles := p :: r.PakFiles, FailedPakList := r.FailedPakList,
        validatedCalls := r.validatedCalls, mountCalls := r.mountCalls }

/-- `FFilePakManager::IsSuccessful` (FilePakManager.cpp:107):
`FailedPakList.Num() <= 0`. -/
def IsSuccessful (r : StartUpResult) : Bool :=
  r.FailedPakList.length ≤ 0

end FFilePakManager

/-! ## Theorems -/

/-- `IsSuccessful` holds exactly when both the task map and the failed
list are empty. -/
theorem isSuccessful_iff (st : FFileDownloadManager.State) :
    FFileDownloadManager.IsSuccessful st = true ↔
      st.Tasks = [] ∧ st.FailedTasks = [] := by
  simp [FFileDownloadManager.IsSuccessful, Nat.le_zero, List.length_eq_zero]

/-- C1: the claim says a second `AddTask` with the same URL and file name
before the run starts is coalesced, leaving exactly one task.  In the code
the map is keyed by a GUID drawn freshly inside the `FTaskInfo`
constructor on every call, so the `Contains` guard never fires: two calls
with identical URL, name and size insert two distinct tasks for the same
target. -/
theorem addTask_same_url_twice_inserts_two_tasks :
    ((FFileDownloadManager.AddTask
        (FFileDownloadManager.AddTask FFileDownloadManager.emptyState 0
          "http://s/v/p/f.pak" "f.pak" 7)
        1 "http://s/v/p/f.pak" "f.pak" 7).Tasks.length = 2) ∧
    ((FFileDownloadManager.AddTask
        (FFileDownloadManager.AddTask FFileDownloadManager.emptyState 0
          "http://s/v/p/f.pak" "f.pak" 7)
        1 "http://s/v/p/f.pak" "f.pak" 7).Tasks.map (fun kv => kv.2.info.URL) =
      ["http://s/v/p/f.pak", "http://s/v/p/f.pak"]) := by
  decide

/-- C2 counterexample: a run with two in-flight tasks where task A fails
and then task B succeeds ends with an empty task map and a nonempty
failure list, yet the aggregate `END_DOWNLOAD` event is never executed —
refuting the claim that emptying the in-flight map always emits the
all-done event. -/
theorem partial_failure_emits_no_aggregate_event :
    (let infoA : FTaskInfo :=
      { FileName := "A.pak", URL := "http://s/v/p/A.pak", FileSize := 4,
        CurrentSize := 4, DownloadSize := 4, TotalSize := 4, GUID := 1 }
     let infoB : FTaskInfo :=
      { FileName := "B.pak", URL := "http://s/v/p/B.pak", FileSize := 5,
        CurrentSize := 5, DownloadSize := 5, TotalSize := 5, GUID := 2 }
     let st0 : FFileDownloadManager.State :=
      { Tasks := [(1, { info := infoA, bIsDownLoading := true }),
                  (2, { info := infoB, bIsDownLoading := true })],
        FailedTasks := [], CurrentDownloadSize := 0 }
     let r := FFileDownloadManager.runTerminalEvents st0 [(infoA, false), (infoB, true)]
     r.1.Tasks = [] ∧ r.1.FailedTasks ≠ [] ∧ EDownloadState.END_DOWNLOAD ∉ r.2) := by
  decide

/-- C2 amended: processing a terminal task event emits the aggregate
`END_DOWNLOAD` exactly when the event is a successful completion that
leaves both the task map and the failure list empty; in particular a
terminal failure never triggers the aggregate event, so a run containing
any failed task never emits it. -/
theorem aggregate_end_download_iff_all_tasks_succeeded
    (st : FFileDownloadManager.State) (info : FTaskInfo) (success : Bool) :
    EDownloadState.END_DOWNLOAD ∈ (FFileDownloadManager.OnTaskTerminal st info success).2 ↔
      (success = true ∧
       (FFileDownloadManager.OnTaskTerminal st info success).1.Tasks = [] ∧
       (FFileDownloadManager.OnTaskTerminal st info success).1.FailedTasks = []) := by
  cases success with
  | false => simp [FFileDownloadManager.OnTaskTerminal]
  | true =>
    simp only [FFileDownloadManager.OnTaskTerminal, if_true]
    by_cases hS : FFileDownloadManager.IsSuccessful
        (FFileDownloadManager.OnTaskFinish st info true) = true
    · rcases (isSuccessful_iff _).mp hS with ⟨h1, h2⟩
      simp [hS, h1, h2]
    · have hne : ¬ ((FFileDownloadManager.OnTaskFinish st info true).Tasks = [] ∧
          (FFileDownloadManager.OnTaskFinish st info true).FailedTasks = []) :=
        fun h => hS ((isSuccessful_iff _).mpr h)
      simp only [hS, if_false]
      constructor
      · intro hmem
        simp at hmem
      · rintro ⟨-, h1, h2⟩
        exact absurd ⟨h1, h2⟩ hne

/-- C3 counterexample: with `MaxRetryTime = 3`, after 3 consecutive
manifest-request timeouts the coordinator has not reached the `ERROR`
state — it has just issued its third retry (`CurrentTimeRetry = 3`) —
refuting the claim that 3 consecutive timeouts transition the run to
`Error`. -/
theorem three_timeouts_do_not_reach_error :
    (UHotUpdateSubsystem.runTimeouts 3 3).bErrored = false ∧
    EHotUpdateState.ERROR ∉ (UHotUpdateSubsystem.runTimeouts 3 3).stateEvents ∧
    (UHotUpdateSubsystem.runTimeouts 3 3).CurrentTimeRetry = 3 := by
  decide

/-- Invariant of the manifest timeout/retry loop, by induction on the
number of consecutive timeouts. -/
theorem runTimeouts_inv (MaxRetryTime : Nat) (n : Nat) :
    ((UHotUpdateSubsystem.runTimeouts MaxRetryTime n).bErrored = true ↔
      MaxRetryTime + 1 ≤ n) ∧
    ((UHotUpdateSubsystem.runTimeouts MaxRetryTime n).bErrored = false →
      (UHotUpdateSubsystem.runTimeouts MaxRetryTime n).CurrentTimeRetry = n) ∧
    (EHotUpdateState.ERROR ∈ (UHotUpdateSubsystem.runTimeouts MaxRetryTime n).stateEvents ↔
      MaxRetryTime + 1 ≤ n) ∧
    EHotUpdateState.END_GETVERSION ∉
      (UHotUpdateSubsystem.runTimeouts MaxRetryTime n).stateEvents := by
  induction n with
  | zero =>
    refine ⟨by simp [UHotUpdateSubsystem.runTimeouts, UHotUpdateSubsystem.initialRetryState],
      fun _ => rfl, by simp [UHotUpdateSubsystem.runTimeouts,
        UHotUpdateSubsystem.initialRetryState], ?_⟩
    simp [UHotUpdateSubsystem.runTimeouts, UHotUpdateSubsystem.initialRetryState]
  | succ n ih =>
    obtain ⟨ih1, ih2, ih3, ih4⟩ := ih
    by_cases hE : (UHotUpdateSubsystem.runTimeouts MaxRetryTime n).bErrored = true
    · have hstep : UHotUpdateSubsystem.runTimeouts MaxRetryTime (n + 1) =
          UHotUpdateSubsystem.runTimeouts MaxRetryTime n := by
        simp [UHotUpdateSubsystem.runTimeouts, UHotUpdateSubsystem.OnReqGetVersionTimeOut, hE]
      have hn : MaxRetryTime + 1 ≤ n := ih1.mp hE
      refine ⟨?_, ?_, ?_, ?_⟩
      · rw [hstep]; exact ⟨fun _ => by omega, fun _ => hE⟩
      · rw [hstep]; intro h; exact absurd hE (by simp [h])
      · rw [hstep]; exact ⟨fun _ => by omega, fun _ => ih3.mpr hn⟩
      · rw [hstep]; exact ih4
    · have hE' : (UHotUpdateSubsystem.runTimeouts MaxRetryTime n).bErrored = false := by
        simpa using hE
      have hcnt : (UHotUpdateSubsystem.runTimeouts MaxRetryTime n).CurrentTimeRetry = n :=
        ih2 hE'
      have hlt : ¬ (MaxRetryTime + 1 ≤ n) := fun h => hE (ih1.mpr h)
      by_cases hc : n + 1 ≤ MaxRetryTime
      · have hstep : UHotUpdateSubsystem.runTimeouts MaxRetryTime (n + 1) =
            { CurrentTimeRetry := n + 1, bErrored := false,
              stateEvents := (UHotUpdateSubsystem.runTimeouts MaxRetryTime n).stateEvents ++
                [EHotUpdateState.BEGIN_GETVERSION] } := by
          simp [UHotUpdateSubsystem.runTimeouts, UHotUpdateSubsystem.OnReqGetVersionTimeOut,
            hE', hcnt, hc]
        refine ⟨?_, ?_, ?_, ?_⟩
        · rw [hstep]; simp; omega
        · rw [hstep]; intro _; rfl
        · rw [hstep]; simp [ih3]; omega
        · rw [hstep]; simp [ih4]
      · have hstep : UHotUpdateSubsystem.runTimeouts MaxRetryTime (n + 1) =
            { CurrentTimeRetry := 0, bErrored := true,
              stateEvents := (UHotUpdateSubsystem.runTimeouts MaxRetryTime n).stateEvents ++
                [EHotUpdateState.ERROR] } := by
          simp [UHotUpdateSubsystem.runTimeouts, UHotUpdateSubsystem.OnReqGetVersionTimeOut,
            hE', hcnt, hc]
        refine ⟨?_, ?_, ?_, ?_⟩
        · rw [hstep]; simp; omega
        · rw [hstep]; intro h; simp at h
        · rw [hstep]; simp; omega
        · rw [hstep]; simp [ih4]

/-- C3 amended: the coordinator transitions to `Error` (and executes the
`ERROR` coordinator event) exactly when the number of consecutive
manifest-request timeouts exceeds `MaxRetryTime` — i.e. on the
`MaxRetryTime + 1`-th timeout, which with the default configuration of 3
is the 4th — and the retry loop never executes `END_GETVERSION`, so
downloads are never started on this path. -/
theorem manifest_retry_errors_after_max_plus_one_timeouts
    (MaxRetryTime n : Nat) :
    ((UHotUpdateSubsystem.runTimeouts MaxRetryTime n).bErrored = true ↔
      MaxRetryTime + 1 ≤ n) ∧
    (EHotUpdateState.ERROR ∈ (UHotUpdateSubsystem.runTimeouts MaxRetryTime n).stateEvents ↔
      MaxRetryTime + 1 ≤ n) ∧
    EHotUpdateState.END_GETVERSION ∉
      (UHotUpdateSubsystem.runTimeouts MaxRetryTime n).stateEvents := by
  obtain ⟨h1, -, h3, h4⟩ := runTimeouts_inv MaxRetryTime n
  exact ⟨h1, h3, h4⟩

/-- C4: the repository's own server stub signals a missing version file
with the body `json_encode("")` — a bare JSON string — but the client's
`RetGetVersion` deserializes into a JSON *object* and treats the parse
failure as fatal: for every object parser, the response `""` executes the
`ERROR` coordinator event and registers nothing, instead of completing
version resolution with no entries as the claim requires. -/
theorem empty_json_string_response_yields_error
    (parseObj : String → Option UHotUpdateSubsystem.Manifest)
    (isPakValidFn : UHotUpdateSubsystem.FileEntry → Bool) :
    UHotUpdateSubsystem.RetGetVersion parseObj isPakValidFn true true 200
        UHotUpdateSubsystem.emptyJsonStringResponse =
      { stateEvents := [EHotUpdateState.ERROR], addedTasks := [], addedPakFiles := [] } := by
  rfl

/-- C5 counterexample: a HEAD response with status 300 — not a 2xx
status — is accepted: the task proceeds to create the temp file and start
chunked downloading, refuting the claim that any non-2xx status fails the
task. -/
theorem head_status_300_proceeds :
    (FDownloadTask.RetGetHead true true 300 true true).outcome =
      FDownloadTask.HeadOutcome.proceed ∧
    ¬ (200 ≤ (300 : Int) ∧ (300 : Int) ≤ 299) := by
  decide

/-- C5 amended: the HEAD phase proceeds to create the temp file and start
chunked downloading exactly when the response is valid, the transport
succeeded, the status code lies in `[200, 400)` (so 3xx responses are
accepted, not only 2xx), and the temp directory and temp file could be
created; every other combination fails the task with `ERROR`. -/
theorem head_proceeds_iff_status_in_200_to_399
    (responseValid bConnectedSuccessfully : Bool) (ResponseCode : Int)
    (createDirOk openTempFileOk : Bool) :
    (FDownloadTask.RetGetHead responseValid bConnectedSuccessfully ResponseCode
        createDirOk openTempFileOk).outcome = FDownloadTask.HeadOutcome.proceed ↔
      (responseValid = true ∧ bConnectedSuccessfully = true ∧
       200 ≤ ResponseCode ∧ ResponseCode < 400 ∧
       createDirOk = true ∧ openTempFileOk = true) := by
  cases responseValid <;> cases bConnectedSuccessfully <;>
    cases createDirOk <;> cases openTempFileOk <;>
      simp [FDownloadTask.RetGetHead] <;> split_ifs with h <;> simp_all <;> omega

/-- One step of the chunk loop: below `total`, the request spans up to
`min (cur + C) total - 1` and the loop resumes at `min (cur + C) total`. -/
theorem chunkRequests_step (C total cur : Nat) (hC : 0 < C) (h : cur < total) :
    FDownloadTask.chunkRequests C total cur =
      (cur, min (cur + C) total - 1) ::
        FDownloadTask.chunkRequests C total (min (cur + C) total) := by
  rw [FDownloadTask.chunkRequests, dif_pos ⟨hC, h⟩]
  have h1 : min (cur + C - 1) (total - 1) = min (cur + C) total - 1 := by omega
  have h2 : min (cur + C) total - 1 + 1 = min (cur + C) total := by omega
  rw [h1, h2]

/-- The chunk loop issues nothing once `CurrentSize` has reached
`TotalSize`. -/
theorem chunkRequests_nil (C total cur : Nat) (h : total ≤ cur) :
    FDownloadTask.chunkRequests C total cur = [] := by
  rw [FDownloadTask.chunkRequests, dif_neg]
  omega

/-- The number of chunk requests issued from offset `cur` is the ceiling
of the remaining bytes over the chunk size. -/
theorem chunkRequests_length (C total : Nat) (hC : 0 < C) :
    ∀ fuel cur, total - cur ≤ fuel →
      (FDownloadTask.chunkRequests C total cur).length = (total - cur + C - 1) / C := by
  intro fuel
  induction fuel with
  | zero =>
    intro cur h
    have hc : total ≤ cur := by omega
    rw [chunkRequests_nil C total cur hc]
    have : total - cur = 0 := by omega
    rw [this]
    simp [Nat.div_eq_of_lt (by omega : C - 1 < C)]
  | succ fuel ih =>
    intro cur h
    by_cases hcur : cur < total
    · rw [chunkRequests_step C total cur hC hcur, List.length_cons]
      by_cases hfit : cur + C ≤ total
      · have hmin : min (cur + C) total = cur + C := by omega
        rw [hmin, ih (cur + C) (by omega)]
        have he : total - cur + C - 1 = (total - (cur + C) + C - 1) + C := by omega
        rw [he, Nat.add_div_right _ hC]
      · have hmin : min (cur + C) total = total := by omega
        rw [hmin, chunkRequests_nil C total total (le_refl total)]
        have he : total - cur + C - 1 = (total - cur - 1) + C := by omega
        rw [List.length_nil, he, Nat.add_div_right _ hC,
          Nat.div_eq_of_lt (by omega : total - cur - 1 < C)]
    · rw [chunkRequests_nil C total cur (by omega)]
      have : total - cur = 0 := by omega
      rw [this]
      simp [Nat.div_eq_of_lt (by omega : C - 1 < C)]

/-- Closed form of the `i`-th chunk request issued from offset `cur`: a
request with index `i` exists exactly while its begin offset `cur + C*i`
is below `total`, and it spans `[cur + C*i, min (cur + C*(i+1)) total - 1]`. -/
theorem chunkRequests_getElem (C total : Nat) (hC : 0 < C) :
    ∀ fuel cur, total - cur ≤ fuel → ∀ i,
      (FDownloadTask.chunkRequests C total cur)[i]? =
        (if cur + C * i < total then
          some (cur + C * i, min (cur + C * (i + 1)) total - 1)
        else none) := by
  intro fuel
  induction fuel with
  | zero =>
    intro cur hf i
    rw [chunkRequests_nil C total cur (by omega)]
    have hge : C * i ≥ 0 := by omega
    rw [if_neg (by omega), List.getElem?_nil]
  | succ fuel ih =>
    intro cur hf i
    by_cases hcur : cur < total
    · rw [chunkRequests_step C total cur hC hcur]
      cases i with
      | zero =>
        have e1 : C * 0 = 0 := by ring
        have e2 : C * (0 + 1) = C := by ring
        rw [List.getElem?_cons_zero, e1, e2, if_pos (by omega), Nat.add_zero]
      | succ j =>
        rw [List.getElem?_cons_succ]
        by_cases hfit : cur + C ≤ total
        · have hmin : min (cur + C) total = cur + C := by omega
          rw [hmin, ih (cur + C) (by omega) j]
          have e1 : cur + C + C * j = cur + C * (j + 1) := by ring
          have e2 : cur + C + C * (j + 1) = cur + C * (j + 1 + 1) := by ring
          simp only [e1, e2]
        · have hmin : min (cur + C) total = total := by omega
          rw [hmin, chunkRequests_nil C total total (le_refl total), List.getElem?_nil]
          have hCle : C ≤ C * (j + 1) := by
            have := Nat.mul_le_mul_left C (by omega : 1 ≤ j + 1)
            omega
          rw [if_neg (by omega)]
    · rw [chunkRequests_nil C total cur (by omega), List.getElem?_nil]
      have hge : C * i ≥ 0 := by omega
      rw [if_neg (by omega)]

/-- C6: for a file of total size `S > 0` with the fixed 4 MiB chunk size
`C`, assuming each chunk response delivers exactly the requested bytes,
the task issues exactly `ceil(S / C) = (S + C - 1) / C` ranged GET
requests, and the `i`-th request spans exactly
`[C*i, min (C*(i+1), S) - 1]` — so the ranges tile `[0, S)` in increasing
order with no gaps and no overlaps and the final range is clamped to end
at byte `S - 1`. -/
theorem chunk_requests_count_and_tiling (S : Nat) (hS : 0 < S) :
    (FDownloadTask.chunkRequests FDownloadTask.ChunkSize S 0).length =
      (S + FDownloadTask.ChunkSize - 1) / FDownloadTask.ChunkSize ∧
    ∀ i, (FDownloadTask.chunkRequests FDownloadTask.ChunkSize S 0)[i]? =
      (if FDownloadTask.ChunkSize * i < S then
        some (FDownloadTask.ChunkSize * i,
          min (FDownloadTask.ChunkSize * (i + 1)) S - 1)
      else none) := by
  have hC : 0 < FDownloadTask.ChunkSize := by
    rw [FDownloadTask.ChunkSize]; omega
  constructor
  · have h := chunkRequests_length FDownloadTask.ChunkSize S hC S 0 (by omega)
    rwa [Nat.sub_zero] at h
  · intro i
    have h := chunkRequests_getElem FDownloadTask.ChunkSize S hC S 0 (by omega) i
    rwa [Nat.zero_add, Nat.zero_add] at h

/-- Witness for C6 at the spec's own end-to-end scenario: a 10 MiB file
(`S = 10485760`), which yields 3 chunk requests. -/
theorem chunk_requests_count_and_tiling_witness :
    0 < 10485760 ∧
    ((FDownloadTask.chunkRequests FDownloadTask.ChunkSize 10485760 0).length =
      (10485760 + FDownloadTask.ChunkSize - 1) / FDownloadTask.ChunkSize ∧
    ∀ i, (FDownloadTask.chunkRequests FDownloadTask.ChunkSize 10485760 0)[i]? =
      (if FDownloadTask.ChunkSize * i < 10485760 then
        some (FDownloadTask.ChunkSize * i,
          min (FDownloadTask.ChunkSize * (i + 1)) 10485760 - 1)
      else none)) :=
  ⟨by omega, chunk_requests_count_and_tiling 10485760 (by omega)⟩

/-- C7: `IsPakValid` returns true exactly when a file is present at the
pak path whose byte length equals the manifest size and whose digest,
rendered in hex, equals the manifest hash up to case; in every other
situation — absent file, size mismatch, or hash mismatch — it returns
false (fails closed). -/
theorem isPakValid_iff_exists_size_and_hash_match
    (file : Option (List Nat)) (md5File : List Nat → List Nat)
    (PakInfo : FPakFileProperty) :
    FFilePakManager.IsPakValid file md5File PakInfo = true ↔
      ∃ contents, file = some contents ∧
        (contents.length : Int) = PakInfo.PakSize ∧
        caselessEq (FFilePakManager.bytesToHex (md5File contents)) PakInfo.MD5 = true := by
  cases file with
  | none => simp [FFilePakManager.IsPakValid]
  | some contents =>
    simp only [FFilePakManager.IsPakValid, Option.some.injEq]
    by_cases h : (contents.length : Int) = PakInfo.PakSize
    · simp [h]
    · simp [h]

/-- C8: in the manifest-processing loop, every entry that validates
locally is registered with the pak manager (mount set) but never passed
to `AddTask` (so no HEAD/GET is ever issued for it), while every entry
that fails validation is passed both to `AddTask` and to the pak
manager. -/
theorem valid_entries_skip_download_invalid_entries_download
    (isPakValidFn : UHotUpdateSubsystem.FileEntry → Bool)
    (m : UHotUpdateSubsystem.Manifest) (ver : String)
    (files : List UHotUpdateSubsystem.FileEntry)
    (e : UHotUpdateSubsystem.FileEntry)
    (hvf : (ver, files) ∈ m) (he : e ∈ files) :
    (isPakValidFn e = true →
        e ∉ (UHotUpdateSubsystem.processManifest isPakValidFn m).1 ∧
        e ∈ (UHotUpdateSubsystem.processManifest isPakValidFn m).2) ∧
    (isPakValidFn e = false →
        e ∈ (UHotUpdateSubsystem.processManifest isPakValidFn m).1 ∧
        e ∈ (UHotUpdateSubsystem.processManifest isPakValidFn m).2) := by
  have hmount : e ∈ (UHotUpdateSubsystem.processManifest isPakValidFn m).2 := by
    simp only [UHotUpdateSubsystem.processManifest, List.mem_flatten, List.mem_map]
    exact ⟨files, ⟨(ver, files), hvf, rfl⟩, he⟩
  constructor
  · intro hv
    refine ⟨?_, hmount⟩
    intro hmem
    simp only [UHotUpdateSubsystem.processManifest, List.mem_flatten, List.mem_map] at hmem
    obtain ⟨lst, ⟨vf, -, hlst⟩, hin⟩ := hmem
    rw [← hlst] at hin
    rw [List.mem_filter] at hin
    simp [hv] at hin
  · intro hv
    refine ⟨?_, hmount⟩
    simp only [UHotUpdateSubsystem.processManifest, List.mem_flatten, List.mem_map]
    refine ⟨files.filter (fun e => ¬ isPakValidFn e), ⟨(ver, files), hvf, rfl⟩, ?_⟩
    rw [List.mem_filter]
    exact ⟨he, by simp [hv]⟩

/-- Witness for C8 on a concrete two-entry manifest, one entry valid
(size 1 passes the validator below) and one invalid. -/
theorem valid_entries_skip_download_invalid_entries_download_witness :
    ((fun e : UHotUpdateSubsystem.FileEntry => e.Size == 1)
        { File := "a.pak", HASH := "aa", Size := 1 } = true →
      { File := "a.pak", HASH := "aa", Size := 1 } ∉
        (UHotUpdateSubsystem.processManifest
          (fun e => e.Size == 1)
          [("0.1.1.0", [{ File := "a.pak", HASH := "aa", Size := 1 },
                        { File := "b.pak", HASH := "bb", Size := 2 }])]).1 ∧
      { File := "a.pak", HASH := "aa", Size := 1 } ∈
        (UHotUpdateSubsystem.processManifest
          (fun e => e.Size == 1)
          [("0.1.1.0", [{ File := "a.pak", HASH := "aa", Size := 1 },
                        { File := "b.pak", HASH := "bb", Size := 2 }])]).2) ∧
    ((fun e : UHotUpdateSubsystem.FileEntry => e.Size == 1)
        { File := "a.pak", HASH := "aa", Size := 1 } = false →
      { File := "a.pak", HASH := "aa", Size := 1 } ∈
        (UHotUpdateSubsystem.processManifest
          (fun e => e.Size == 1)
          [("0.1.1.0", [{ File := "a.pak", HASH := "aa", Size := 1 },
                        { File := "b.pak", HASH := "bb", Size := 2 }])]).1 ∧
      { File := "a.pak", HASH := "aa", Size := 1 } ∈
        (UHotUpdateSubsystem.processManifest
          (fun e => e.Size == 1)
          [("0.1.1.0", [{ File := "a.pak", HASH := "aa", Size := 1 },
                        { File := "b.pak", HASH := "bb", Size := 2 }])]).2) :=
  valid_entries_skip_download_invalid_entries_download
    (fun e => e.Size == 1)
    [("0.1.1.0", [{ File := "a.pak", HASH := "aa", Size := 1 },
                  { File := "b.pak", HASH := "bb", Size := 2 }])]
    "0.1.1.0"
    [{ File := "a.pak", HASH := "aa", Size := 1 },
     { File := "b.pak", HASH := "bb", Size := 2 }]
    { File := "a.pak", HASH := "aa", Size := 1 }
    (by decide) (by decide)

/-- C9: in the mount stage, `IsPakValid` and `Mount` are only ever invoked
on entries whose file-name extension compares (case-insensitively) equal
to `pak`; a queued entry with any other extension is skipped silently —
and a run whose entries all lack the pak extension validates nothing,
mounts nothing, fails nothing, leaves `PakFiles` untouched and is reported
successful. -/
theorem non_pak_extension_entries_skipped
    (isValidFn mountFn : FPakFileProperty → Bool) (paks : List FPakFileProperty) :
    (∀ q, (q ∈ (FFilePakManager.StartUp isValidFn mountFn paks).validatedCalls ∨
           q ∈ (FFilePakManager.StartUp isValidFn mountFn paks).mountCalls ∨
           q ∈ (FFilePakManager.StartUp isValidFn mountFn paks).FailedPakList) →
        caselessEq (getExtension q.PakName) "pak" = true) ∧
    ((∀ p ∈ paks, caselessEq (getExtension p.PakName) "pak" = false) →
      FFilePakManager.StartUp isValidFn mountFn paks =
        { PakFiles := paks, FailedPakList := [], validatedCalls := [], mountCalls := [] } ∧
      FFilePakManager.IsSuccessful (FFilePakManager.StartUp isValidFn mountFn paks) = true) := by
  induction paks with
  | nil =>
    refine ⟨?_, ?_⟩
    · intro q hq
      simp [FFilePakManager.StartUp] at hq
    · intro _
      exact ⟨rfl, rfl⟩
  | cons p rest ih =>
    obtain ⟨ih1, ih2⟩ := ih
    by_cases hext : caselessEq (getExtension p.PakName) "pak" = true
    · refine ⟨?_, ?_⟩
      · intro q hq
        by_cases hvalid : isValidFn p = true
        · by_cases hmount : mountFn p = true
          · simp only [FFilePakManager.StartUp, hext, hvalid, hmount, if_true] at hq
            simp only [List.mem_cons] at hq
            rcases hq with (h | h) | (h | h) | h
            · exact h ▸ hext
            · exact ih1 q (Or.inl h)
            · exact h ▸ hext
            · exact ih1 q (Or.inr (Or.inl h))
            · exact ih1 q (Or.inr (Or.inr h))
          · simp only [FFilePakManager.StartUp, hext, hvalid, hmount, if_true,
              Bool.false_eq_true, if_false] at hq
            simp only [List.mem_cons] at hq
            rcases hq with (h | h) | (h | h) | (h | h)
            · exact h ▸ hext
            · exact ih1 q (Or.inl h)
            · exact h ▸ hext
            · exact ih1 q (Or.inr (Or.inl h))
            · exact h ▸ hext
            · exact ih1 q (Or.inr (Or.inr h))
        · simp only [FFilePakManager.StartUp, hext, hvalid, if_true,
            Bool.false_eq_true, if_false] at hq
          simp only [List.mem_cons] at hq
          rcases hq with (h | h) | h | (h | h)
          · exact h ▸ hext
          · exact ih1 q (Or.inl h)
          · exact ih1 q (Or.inr (Or.inl h))
          · exact h ▸ hext
          · exact ih1 q (Or.inr (Or.inr h))
      · intro hall
        have := hall p (List.mem_cons_self p rest)
        rw [hext] at this
        cases this
    · have hext' : caselessEq (getExtension p.PakName) "pak" = false := by
        simpa using hext
      have hstep : FFilePakManager.StartUp isValidFn mountFn (p :: rest) =
          { PakFiles := p :: (FFilePakManager.StartUp isValidFn mountFn rest).PakFiles,
            FailedPakList := (FFilePakManager.StartUp isValidFn mountFn rest).FailedPakList,
            validatedCalls := (FFilePakManager.StartUp isValidFn mountFn rest).validatedCalls,
            mountCalls := (FFilePakManager.StartUp isValidFn mountFn rest).mountCalls } := by
        simp [FFilePakManager.StartUp, hext']
      refine ⟨?_, ?_⟩
      · intro q hq
        rw [hstep] at hq
        exact ih1 q hq
      · intro hall
        have hrest : ∀ p ∈ rest, caselessEq (getExtension p.PakName) "pak" = false :=
          fun r hr => hall r (List.mem_cons_of_mem p hr)
        obtain ⟨hr1, hr2⟩ := ih2 hrest
        rw [hstep, hr1]
        exact ⟨rfl, rfl⟩

/-- Witness for C9: one call on a run whose entries are all mounted (for
the calls-only-on-pak-extensions part) and one on a run with a single
non-pak entry (for the skip part). -/
theorem non_pak_extension_entries_skipped_witness :
    caselessEq (getExtension (FPakFileProperty.mk "b.pak" 1 "aa").PakName) "pak" = true ∧
    (FFilePakManager.StartUp (fun _ => false) (fun _ => false)
        [{ PakName := "readme.txt", PakSize := 3, MD5 := "ab" }] =
      { PakFiles := [{ PakName := "readme.txt", PakSize := 3, MD5 := "ab" }],
        FailedPakList := [], validatedCalls := [], mountCalls := [] } ∧
     FFilePakManager.IsSuccessful (FFilePakManager.StartUp (fun _ => false) (fun _ => false)
        [{ PakName := "readme.txt", PakSize := 3, MD5 := "ab" }]) = true) :=
  ⟨(non_pak_extension_entries_skipped (fun _ => true) (fun _ => true)
      [{ PakName := "b.pak", PakSize := 1, MD5 := "aa" }]).1
    (FPakFileProperty.mk "b.pak" 1 "aa") (Or.inl (by decide)),
   (non_pak_extension_entries_skipped (fun _ => false) (fun _ => false)
      [{ PakName := "readme.txt", PakSize := 3, MD5 := "ab" }]).2 (by decide)⟩

/-- C10 counterexample, in two parts.  (1) A task with an empty URL has no
`/` at or after index 14, yet `Start` emits the `ERROR` task event and
does not mark the task downloading.  (2) The URL `http://a.com/` — 13
characters, so it too has no `/` at or after index 14 — does not hang
either: the engine's `Find` clamps the start position to the last
character and finds the trailing slash, so `GetEncodedURL` returns the
full URL and `Start` marks the task downloading, issues the HEAD request
and emits `REQ_HEAD`, not "no event at all". -/
theorem empty_url_start_emits_error :
    (FDownloadTask.Start id "" "f.pak" false =
      { fileName := "f.pak", bIsDownLoading := false,
        taskEvents := [EDownloadTaskEvent.ERROR], httpRequests := [] } ∧
     FDownloadTask.findSlashFrom "" 14 = none) ∧
    ("http://a.com/".length ≤ 14 ∧
     FDownloadTask.Start id "http://a.com/" "f.pak" false =
      { fileName := "f.pak", bIsDownLoading := true,
        taskEvents := [EDownloadTaskEvent.REQ_HEAD],
        httpRequests := ["http://a.com/"] }) := by
  decide

/-- C10 amended: for a task with a nonempty URL and a nonempty (possibly
URL-derived) file name whose URL has no `/` at or after the clamped search
start `min(14, length - 1)` — for URLs of 15 or more characters this means
no `/` at or after index 14, while for shorter URLs it means no `/` at or
after the last character — `GetEncodedURL` yields the empty string and
`Start` sets `bIsDownLoading` but issues no HTTP request and executes no
task event at all; since only task events can remove a task from the
manager's in-flight map, such a task never reaches a terminal outcome. -/
theorem unencodable_url_start_hangs_silently
    (urlEncode : String → String) (URL FileName0 : String)
    (hURL : URL ≠ "")
    (hFN : (if FileName0 = "" then cleanFilename URL else FileName0) ≠ "")
    (hslash : FDownloadTask.findSlashFrom URL 14 = none) :
    FDownloadTask.Start urlEncode URL FileName0 false =
      { fileName := if FileName0 = "" then cleanFilename URL else FileName0,
        bIsDownLoading := true, taskEvents := [], httpRequests := [] } := by
  unfold FDownloadTask.Start
  rw [if_neg (by push_neg; exact ⟨hURL, hFN⟩)]
  rw [if_neg (by simp)]
  have henc : FDownloadTask.GetEncodedURL urlEncode URL = "" := by
    unfold FDownloadTask.GetEncodedURL
    rw [hslash]
  rw [if_pos henc]

/-- Witness for C10 amended: the URL `http://x` (8 characters, so no `/`
at or after index 14) with file name `a.pak`. -/
theorem unencodable_url_start_hangs_silently_witness :
    ("http://x" ≠ "" ∧
     (if "a.pak" = "" then cleanFilename "http://x" else "a.pak") ≠ "" ∧
     FDownloadTask.findSlashFrom "http://x" 14 = none) ∧
    FDownloadTask.Start id "http://x" "a.pak" false =
      { fileName := if "a.pak" = "" then cleanFilename "http://x" else "a.pak",
        bIsDownLoading := true, taskEvents := [], httpRequests := [] } :=
  ⟨⟨by decide, by decide, by decide⟩,
   unencodable_url_start_hangs_silently id "http://x" "a.pak"
     (by decide) (by decide) (by decide)⟩

end HotUpdate
